import Mathlib

/-!
A shallow embedding of the flight-recorder library (`src/recorder.c`) and
proofs about it.  Machine integers (`uintptr_t`, `long`, `int`) are modelled
as `Nat`/`Int` with explicit reductions where overflow matters.  Regular
expressions (`regcomp`/`regexec`) are modelled by oracles: a validity
predicate for patterns and a full-match predicate on (pattern, name) pairs,
exactly mirroring the `rm.rm_so == 0 && name[rm.rm_eo] == 0` full-match
test used throughout the source.
-/

namespace Recorder

/-- The channel data types (`recorder_type` in recorder.h; the header is not
under src/, the constructors are those the spec and recorder.c use:
none / invalid / signed / unsigned / real). -/
inductive recorder_type where
  | RECORDER_NONE
  | RECORDER_INVALID
  | RECORDER_SIGNED
  | RECORDER_UNSIGNED
  | RECORDER_REAL
deriving DecidableEq, Repr

open recorder_type

/-- Modelled from the spec: `RECORDER_CHAN_MAGIC` is defined in recorder.h,
which is not under src/; the spec fixes only that it is a fixed nonzero
sentinel, shared between the channel-file magic and the "exported only"
trace value.  The concrete value below stands for that sentinel. -/
def RECORDER_CHAN_MAGIC : Int := 0xC0DABA7A

/-- Classification of one character inside a conversion, transcribing the
`switch (c)` of `recorder_type_from_format` (recorder.c:941-985):
floating conversions give REAL, `b d D i` give SIGNED,
`c C s S o O u U x X p` give UNSIGNED, digits and flag/length modifiers
give NONE (no decision yet), and `n`, `*` or anything else give INVALID. -/
def recorder_type_of_char (c : Char) : recorder_type :=
  if c = 'f' ∨ c = 'F' ∨ c = 'g' ∨ c = 'G' ∨
     c = 'e' ∨ c = 'E' ∨ c = 'a' ∨ c = 'A' then RECORDER_REAL
  else if c = 'b' ∨ c = 'd' ∨ c = 'D' ∨ c = 'i' then RECORDER_SIGNED
  else if c = 'c' ∨ c = 'C' ∨ c = 's' ∨ c = 'S' ∨
          c = 'o' ∨ c = 'O' ∨ c = 'u' ∨ c = 'U' ∨
          c = 'x' ∨ c = 'X' ∨ c = 'p' then RECORDER_UNSIGNED
  else if ('0' ≤ c ∧ c ≤ '9') ∨ c = '.' ∨ c = '+' ∨ c = '-' ∨
          c = 'l' ∨ c = 'L' ∨ c = 'h' ∨ c = 'j' ∨
          c = 't' ∨ c = 'z' ∨ c = 'q' ∨ c = 'v' then RECORDER_NONE
  else RECORDER_INVALID

/-- The scanning loop of `recorder_type_from_format` (recorder.c:931-994).
`in_format` toggles on `%` and is reset to `false` before the switch on any
other character, exactly as in the source; `index` is decremented each time
a non-NONE result is produced until it reaches the requested conversion. -/
def typeScan : List Char → Bool → Nat → recorder_type
  | [], _, _ => RECORDER_INVALID
  | c :: rest, in_format, index =>
    if c = '%' then typeScan rest (!in_format) index
    else if !in_format then typeScan rest false index
    else
      let r := recorder_type_of_char c
      if r = RECORDER_NONE then typeScan rest false index
      else if index = 0 then r
      else typeScan rest false (index - 1)

/-- `recorder_type_from_format` (recorder.c:921-996): analyze a format
string to figure out the type of export for argument slot `index`. -/
def recorder_type_from_format (format : String) (index : Nat) : recorder_type :=
  typeScan format.data false index

/-- Net effect of the channel-type install in `recorder_trace_entry`
(recorder.c:1019-1021): the first writer CAS-installs INVALID over NONE and
then stores the inferred type; a writer that observes a non-NONE tag leaves
it unchanged.  Sequentially the CAS succeeds exactly when the tag is NONE. -/
def chanTypeUpdate (t : recorder_type) (format : String) (index : Nat) :
    recorder_type :=
  if t = RECORDER_NONE then recorder_type_from_format format index else t

/-- The list of types contributed by a format string: only the single
character immediately following an unescaped `%` is examined; a character
classified NONE (digit, flag or length modifier) contributes nothing and
ends the conversion as far as the scanner is concerned.  This is the
amended reading of "the i-th %-conversion". -/
def typeContribs : List Char → Bool → List recorder_type
  | [], _ => []
  | c :: rest, in_format =>
    if c = '%' then typeContribs rest (!in_format)
    else if !in_format then typeContribs rest false
    else
      let r := recorder_type_of_char c
      if r = RECORDER_NONE then typeContribs rest false
      else r :: typeContribs rest false

/-- The i-th contributed type of a format, INVALID when there are fewer
than `i + 1` contributions. -/
def typeFromContribs (format : String) (index : Nat) : recorder_type :=
  ((typeContribs format.data false).get? index).getD RECORDER_INVALID

/-- The conversion characters of a format string as the claim (and printf)
understand them: after a `%`, flag, width, precision and length-modifier
characters are skipped and the following conversion character is collected;
`%%` is a literal percent.  This definition follows the claim's words, for
comparison with the source's scanner. -/
def specConversions : List Char → Bool → List Char
  | [], _ => []
  | c :: rest, false =>
    if c = '%' then specConversions rest true else specConversions rest false
  | c :: rest, true =>
    if c = '%' then specConversions rest false
    else if ('0' ≤ c ∧ c ≤ '9') ∨ c = '.' ∨ c = '+' ∨ c = '-' ∨
            c = 'l' ∨ c = 'L' ∨ c = 'h' ∨ c = 'j' ∨
            c = 't' ∨ c = 'z' ∨ c = 'q' ∨ c = 'v' then
      specConversions rest true
    else c :: specConversions rest false

/-- The type the claim assigns to one conversion character. -/
def claimTypeOfConv (c : Char) : recorder_type :=
  if c = 'f' ∨ c = 'F' ∨ c = 'g' ∨ c = 'G' ∨
     c = 'e' ∨ c = 'E' ∨ c = 'a' ∨ c = 'A' then RECORDER_REAL
  else if c = 'b' ∨ c = 'd' ∨ c = 'D' ∨ c = 'i' then RECORDER_SIGNED
  else if c = 'c' ∨ c = 'C' ∨ c = 's' ∨ c = 'S' ∨
          c = 'o' ∨ c = 'O' ∨ c = 'u' ∨ c = 'U' ∨
          c = 'x' ∨ c = 'X' ∨ c = 'p' then RECORDER_UNSIGNED
  else RECORDER_INVALID

/-- The type the claim predicts for slot `index` of a format string:
the table applied to the i-th printf conversion character, INVALID past
the last conversion. -/
def claimTypeFromFormat (format : String) (index : Nat) : recorder_type :=
  ((specConversions format.data false).get? index).map claimTypeOfConv
    |>.getD RECORDER_INVALID

theorem typeScan_eq_contribs (l : List Char) :
    ∀ (b : Bool) (i : Nat),
      typeScan l b i = ((typeContribs l b).get? i).getD RECORDER_INVALID := by
  induction l with
  | nil => intro b i; rfl
  | cons c rest ih =>
    intro b i
    by_cases hc : c = '%'
    · simp [typeScan, typeContribs, hc, ih]
    · cases b with
      | false => simp [typeScan, typeContribs, hc, ih]
      | true =>
        by_cases hr : recorder_type_of_char c = RECORDER_NONE
        · simp [typeScan, typeContribs, hc, hr, ih]
        · cases i with
          | zero => simp [typeScan, typeContribs, hc, hr]
          | succ j => simp [typeScan, typeContribs, hc, hr, ih]

/-- C5, counterexample.  The claim predicts that slot 0 of format `"%ld"`
is typed from its 0-th %-conversion, which is `d`, hence SIGNED; but
`recorder_type_from_format` resets its `in_format` flag on the length
modifier `l` and never reaches the `d`, so the first writer on a NONE
channel stores INVALID instead. -/
theorem C5_counterexample :
    (specConversions "%ld".data false).get? 0 = some 'd' ∧
    claimTypeFromFormat "%ld" 0 = RECORDER_SIGNED ∧
    recorder_type_from_format "%ld" 0 = RECORDER_INVALID ∧
    chanTypeUpdate RECORDER_NONE "%ld" 0 = RECORDER_INVALID ∧
    recorder_type_from_format "%ld" 0 ≠ claimTypeFromFormat "%ld" 0 := by
  refine ⟨rfl, rfl, rfl, rfl, ?_⟩; decide

/-- C5, amended.  For every exported channel whose type tag is NONE, the
first writer stores the type computed by `recorder_type_from_format`, which
examines only the single character immediately following each unescaped
`%`: f F g G e E a A contribute REAL; b d D i contribute SIGNED;
c C s S o O u U x X p contribute UNSIGNED; `n`, `*` and any unrecognised
character contribute INVALID; a digit, flag or length modifier right after
`%` contributes nothing and the rest of that conversion is not examined.
The stored type is the `index`-th contribution, or INVALID when fewer than
`index + 1` contributions exist (in particular slot 0 of `"%d"` is typed
SIGNED).  A writer that observes a non-NONE tag leaves it unchanged. -/
theorem C5_type_install_amended :
    (∀ (format : String) (index : Nat),
        recorder_type_from_format format index = typeFromContribs format index) ∧
    (∀ (format : String) (index : Nat),
        chanTypeUpdate RECORDER_NONE format index = typeFromContribs format index) ∧
    (∀ (t : recorder_type) (format : String) (index : Nat),
        t ≠ RECORDER_NONE → chanTypeUpdate t format index = t) ∧
    chanTypeUpdate RECORDER_NONE "%d" 0 = RECORDER_SIGNED := by
  refine ⟨?_, ?_, ?_, rfl⟩
  · intro format index
    exact typeScan_eq_contribs format.data false index
  · intro format index
    simp only [chanTypeUpdate, if_pos rfl]
    exact typeScan_eq_contribs format.data false index
  · intro t format index ht
    simp [chanTypeUpdate, ht]

/-- C5, witness: the amended theorem applied at concrete inputs, the
hypothesis of its last universally quantified part discharged at
`t = RECORDER_SIGNED`. -/
theorem C5_type_install_amended_witness :
    recorder_type_from_format "%ld" 0 = typeFromContribs "%ld" 0 ∧
    chanTypeUpdate RECORDER_NONE "%x" 1 = typeFromContribs "%x" 1 ∧
    chanTypeUpdate RECORDER_SIGNED "%f" 0 = RECORDER_SIGNED :=
  ⟨C5_type_install_amended.1 "%ld" 0,
   C5_type_install_amended.2.1 "%x" 1,
   C5_type_install_amended.2.2.1 RECORDER_SIGNED "%f" 0 (by decide)⟩

/-!
## Entry formatting (`recorder_dump_entry`, recorder.c:57-188)

One recorder entry (recorder.c's `recorder_entry`, declared in recorder.h
which is not under src/; the fields are those the source reads:
`timestamp`, `order`, `where`, `format` and `args`).  `args` models the C
array of `sizeof(entry->args)/sizeof(entry->args[0]) = 4` machine words
(the source manipulates exactly 4 slots everywhere, e.g. recorder.c:533,
1008, 1369); reads beyond index 3 never happen (claim C8).
-/

structure recorder_entry where
  timestamp : Nat
  order : Nat
  whereLoc : String
  format : String
  args : Nat → Int

/-- The argument value handed to one `snprintf` call by
`recorder_dump_entry`: either a word reinterpreted through a union as
float/double and passed as `double` (recorder.c:152-169), or a plain
`intptr_t` word, or the address of the literal `"<NULL>"` substituted for
a zero string argument (recorder.c:173-175). -/
inductive PrintfArg where
  | argFloat (bits : Int)
  | argWord (v : Int)
  | argNullString
deriving DecidableEq, Repr

/-- What `recorder_dump_entry`'s formatting loop emits: literal characters
copied to the output buffer, and one `snprintf` call per conversion,
carrying the extracted specifier (the `format_buffer` contents), the
conversion character, the argument-slot index consumed, and the value
passed. -/
inductive Piece where
  | lit (c : Char)
  | call (spec : List Char) (conv : Char) (slot : Nat) (arg : PrintfArg)
deriving DecidableEq, Repr

/-- The floating conversion characters (recorder.c:106-109). -/
def isFloatConv (c : Char) : Bool :=
  c = 'f' ∨ c = 'F' ∨ c = 'g' ∨ c = 'G' ∨ c = 'e' ∨ c = 'E' ∨ c = 'a' ∨ c = 'A'

/-- The non-floating characters that terminate a conversion specifier
(recorder.c:112-125), including `%` and the NUL terminator. -/
def isIntConv (c : Char) : Bool :=
  c = 'b' ∨ c = 'c' ∨ c = 'C' ∨ c = 's' ∨ c = 'S' ∨ c = 'd' ∨ c = 'D' ∨
  c = 'i' ∨ c = 'o' ∨ c = 'O' ∨ c = 'u' ∨ c = 'U' ∨ c = 'x' ∨ c = 'X' ∨
  c = 'p' ∨ c = '%' ∨ c = '\x00'

/-- Digits, flags and length modifiers accepted inside a conversion
(recorder.c:128-139). -/
def isFmtModifier (c : Char) : Bool :=
  ('0' ≤ c ∧ c ≤ '9') ∨ c = '.' ∨ c = '+' ∨ c = '-' ∨
  c = 'l' ∨ c = 'L' ∨ c = 'h' ∨ c = 'j' ∨ c = 't' ∨ c = 'z' ∨ c = 'q' ∨ c = 'v'

/-- Result of scanning one conversion specifier: the characters copied
into `format_buffer`, the last character read (`c` after the inner loop),
the `floatingPoint` and `unsupported` flags, and the unconsumed rest of
the format string. -/
structure ScanResult where
  spec : List Char
  last : Char
  fp : Bool
  unsup : Bool
  rest : List Char
deriving DecidableEq, Repr

/-- The inner specifier-scanning loop of `recorder_dump_entry`
(recorder.c:100-147).  The empty-list case is the NUL terminator (C's
`case 0`).  Note that once `unsupported` is set the loop keeps scanning
until a terminating character, exactly as in the source; the source's
`fmt < fmt_end` guard compares a pointer into the format string with a
pointer one past `format_buffer`, two unrelated objects, and is not a
meaningful bound — it is not modelled. -/
def scanSpec : List Char → List Char → Bool → Bool → ScanResult
  | [], acc, fp, unsup => ⟨acc, '\x00', fp, unsup, []⟩
  | c :: rest, acc, fp, unsup =>
    if isFloatConv c then ⟨acc ++ [c], c, true, unsup, rest⟩
    else if isIntConv c then ⟨acc ++ [c], c, fp, unsup, rest⟩
    else if isFmtModifier c then scanSpec rest (acc ++ [c]) fp unsup
    else scanSpec rest (acc ++ [c]) fp true

theorem scanSpec_rest_length :
    ∀ (l acc : List Char) (fp u : Bool),
      (scanSpec l acc fp u).rest.length ≤ l.length := by
  intro l
  induction l with
  | nil => intro acc fp u; simp [scanSpec]
  | cons c rest ih =>
    intro acc fp u
    simp only [scanSpec]
    by_cases h1 : isFloatConv c
    · simp [h1]
    · by_cases h2 : isIntConv c
      · simp [h1, h2]
      · by_cases h3 : isFmtModifier c
        · simp only [h1, h2, h3]
          simp only [Bool.false_eq_true, if_false, if_true]
          exact le_trans (ih _ _ _) (Nat.le_succ _)
        · simp only [h1, h2, h3]
          simp only [Bool.false_eq_true, if_false]
          exact le_trans (ih _ _ _) (Nat.le_succ _)

theorem scanSpec_fp_float :
    ∀ (l acc : List Char) (u : Bool),
      (scanSpec l acc false u).fp = true →
      isFloatConv (scanSpec l acc false u).last := by
  intro l
  induction l with
  | nil => intro acc u h; simp [scanSpec] at h
  | cons c rest ih =>
    intro acc u h
    simp only [scanSpec] at h ⊢
    by_cases h1 : isFloatConv c
    · simp [h1]
    · by_cases h2 : isIntConv c
      · simp [h1, h2] at h
      · by_cases h3 : isFmtModifier c
        · simp only [h1, h2, h3, Bool.false_eq_true, if_false, if_true] at h ⊢
          exact ih _ _ h
        · simp only [h1, h2, h3, Bool.false_eq_true, if_false] at h ⊢
          exact ih _ _ h

/-- The substitution at recorder.c:173-175: a string argument (`%s`/`%S`)
whose slot is zero is replaced by the address of the literal `"<NULL>"`. -/
def nullCheckedArg (last : Char) (a : Int) : PrintfArg :=
  if (last = 's' ∨ last = 'S') ∧ a = 0 then PrintfArg.argNullString
  else PrintfArg.argWord a

/-- The outer formatting loop of `recorder_dump_entry` (recorder.c:82-181),
as the sequence of buffer writes and `snprintf` calls it performs.
`renderLen` abstracts `snprintf`'s return value (the length the rendering
would occupy), which advances `dst`; `dst` starts at 0 with
`dst_end = 254` (a 256-byte buffer minus 2), and the loop runs while
`dst < dst_end && argIndex < maxArgIndex` with `maxArgIndex = 4`.
An embedded or terminating NUL, or an unsupported conversion (`%n`, `%*`,
unrecognised), aborts the loop.  The trailing-newline fix-up and the final
`format(...)` callback (recorder.c:182-187) consume no arguments and are
not modelled. -/
def dumpLoop (args : Nat → Int) (renderLen : List Char → PrintfArg → Nat) :
    List Char → Nat → Nat → List Piece
  | fmt, argIndex, dst =>
    if dst < 254 ∧ argIndex < 4 then
      match fmt with
      | [] => []
      | c :: rest =>
        if c = '\x00' then []
        else if c ≠ '%' then
          Piece.lit c :: dumpLoop args renderLen rest argIndex (dst + 1)
        else if (scanSpec rest ['%'] false false).last = '\x00' ∨
                (scanSpec rest ['%'] false false).unsup then []
        else if (scanSpec rest ['%'] false false).fp then
          Piece.call (scanSpec rest ['%'] false false).spec
              (scanSpec rest ['%'] false false).last argIndex
              (.argFloat (args argIndex)) ::
            dumpLoop args renderLen (scanSpec rest ['%'] false false).rest
              (argIndex + 1)
              (dst + renderLen (scanSpec rest ['%'] false false).spec
                       (.argFloat (args argIndex)))
        else
          Piece.call (scanSpec rest ['%'] false false).spec
              (scanSpec rest ['%'] false false).last argIndex
              (nullCheckedArg (scanSpec rest ['%'] false false).last (args argIndex)) ::
            dumpLoop args renderLen (scanSpec rest ['%'] false false).rest
              (argIndex + 1)
              (dst + renderLen (scanSpec rest ['%'] false false).spec
                       (nullCheckedArg (scanSpec rest ['%'] false false).last (args argIndex)))
    else []
  termination_by fmt _ _ => fmt.length
  decreasing_by
    all_goals simp_wf
    all_goals first
      | exact Nat.lt_succ_of_le (scanSpec_rest_length _ _ _ _)
      | omega

/-- `recorder_dump_entry` (recorder.c:57-188): format one entry, starting
from the beginning of the buffer and argument slot 0. -/
def recorder_dump_entry (e : recorder_entry)
    (renderLen : List Char → PrintfArg → Nat) : List Piece :=
  dumpLoop e.args renderLen e.format.data 0 0

theorem isFloatConv_not_string (c : Char) (h : isFloatConv c = true) :
    ¬(c = 's' ∨ c = 'S') := by
  intro hc
  rcases hc with hc | hc <;> subst hc <;> simp [isFloatConv] at h

theorem dump_calls_spec (args : Nat → Int) (rl : List Char → PrintfArg → Nat) :
    ∀ (fmt : List Char) (argIndex dst : Nat),
      ∀ p ∈ dumpLoop args rl fmt argIndex dst,
        ∀ spec conv slot a, p = Piece.call spec conv slot a →
          (argIndex ≤ slot ∧ slot < 4) ∧
          ((conv = 's' ∨ conv = 'S') → args slot = 0 → a = PrintfArg.argNullString) := by
  intro fmt argIndex dst
  induction fmt, argIndex, dst using dumpLoop.induct args rl with
  | case1 argIndex dst h =>
    intro p hp
    rw [dumpLoop.eq_def] at hp
    simp [h] at hp
  | case2 argIndex dst h rest =>
    intro p hp
    rw [dumpLoop.eq_def] at hp
    simp [h] at hp
  | case3 argIndex dst h c rest hc hpc ih =>
    intro p hp spec conv slot a hp'
    rw [dumpLoop.eq_def] at hp
    simp only [h, and_self, if_true, if_neg hc, if_pos hpc, List.mem_cons] at hp
    rcases hp with hp | hp
    · subst hp; simp at hp'
    · exact ih p hp spec conv slot a hp'
  | case4 argIndex dst h c rest hc hpc habort =>
    intro p hp
    rw [dumpLoop.eq_def] at hp
    have hpc' : c = '%' := by simpa using hpc
    simp [h, hc, hpc', habort] at hp
  | case5 argIndex dst h c rest hc hpc habort hfp ih =>
    intro p hp spec conv slot a hp'
    rw [dumpLoop.eq_def] at hp
    have hpc' : c = '%' := by simpa using hpc
    simp only [h, and_self, if_true, if_neg hc, hpc', ne_eq, not_true_eq_false,
      if_false, if_neg (by decide : ¬('%' : Char) = '\x00'), if_neg habort,
      if_pos hfp, List.mem_cons] at hp
    rcases hp with hp | hp
    · subst hp
      cases hp'
      refine ⟨⟨le_refl _, h.2⟩, ?_⟩
      intro hs _
      exact absurd hs (isFloatConv_not_string _ (scanSpec_fp_float _ _ _ hfp))
    · have := ih p hp spec conv slot a hp'
      exact ⟨⟨le_trans (Nat.le_succ _) this.1.1, this.1.2⟩, this.2⟩
  | case6 argIndex dst h c rest hc hpc habort hfp ih =>
    intro p hp spec conv slot a hp'
    rw [dumpLoop.eq_def] at hp
    have hpc' : c = '%' := by simpa using hpc
    simp only [h, and_self, if_true, if_neg hc, hpc', ne_eq, not_true_eq_false,
      if_false, if_neg (by decide : ¬('%' : Char) = '\x00'), if_neg habort,
      if_neg hfp, List.mem_cons] at hp
    rcases hp with hp | hp
    · subst hp
      cases hp'
      refine ⟨⟨le_refl _, h.2⟩, ?_⟩
      intro hs ha
      simp [nullCheckedArg, hs, ha]
    · have := ih p hp spec conv slot a hp'
      exact ⟨⟨le_trans (Nat.le_succ _) this.1.1, this.1.2⟩, this.2⟩
  | case7 fmt argIndex dst h =>
    intro p hp
    rw [dumpLoop.eq_def] at hp
    simp [h] at hp

/-- Whether a piece is an argument-consuming `snprintf` call. -/
def isCallPiece : Piece → Bool
  | Piece.call _ _ _ _ => true
  | Piece.lit _ => false

theorem dump_calls_count (args : Nat → Int) (rl : List Char → PrintfArg → Nat) :
    ∀ (fmt : List Char) (argIndex dst : Nat),
      (dumpLoop args rl fmt argIndex dst).countP isCallPiece ≤ 4 - argIndex := by
  intro fmt argIndex dst
  induction fmt, argIndex, dst using dumpLoop.induct args rl with
  | case1 argIndex dst h =>
    rw [dumpLoop.eq_def]; simp [h]
  | case2 argIndex dst h rest =>
    rw [dumpLoop.eq_def]; simp [h]
  | case3 argIndex dst h c rest hc hpc ih =>
    rw [dumpLoop.eq_def]
    simp only [h, and_self, if_true, if_neg hc, if_pos hpc,
      List.countP_cons, isCallPiece]
    simpa using ih
  | case4 argIndex dst h c rest hc hpc habort =>
    rw [dumpLoop.eq_def]
    have hpc' : c = '%' := by simpa using hpc
    simp [h, hc, hpc', habort]
  | case5 argIndex dst h c rest hc hpc habort hfp ih =>
    rw [dumpLoop.eq_def]
    have hpc' : c = '%' := by simpa using hpc
    simp only [h, and_self, if_true, if_neg hc, hpc', ne_eq, not_true_eq_false,
      if_false, if_neg (by decide : ¬('%' : Char) = '\x00'), if_neg habort,
      if_pos hfp, List.countP_cons, isCallPiece]
    omega
  | case6 argIndex dst h c rest hc hpc habort hfp ih =>
    rw [dumpLoop.eq_def]
    have hpc' : c = '%' := by simpa using hpc
    simp only [h, and_self, if_true, if_neg hc, hpc', ne_eq, not_true_eq_false,
      if_false, if_neg (by decide : ¬('%' : Char) = '\x00'), if_neg habort,
      if_neg hfp, List.countP_cons, isCallPiece]
    omega
  | case7 fmt argIndex dst h =>
    rw [dumpLoop.eq_def]; simp [h]

/-- C7: for every entry whose format contains a `%s` (or `%S`) conversion
and whose corresponding argument slot holds 0, formatting the entry passes
the literal `"<NULL>"` to `snprintf` for that argument instead of the null
pointer. -/
theorem C7_null_string_rendered (e : recorder_entry)
    (renderLen : List Char → PrintfArg → Nat) :
    ∀ p ∈ recorder_dump_entry e renderLen,
      ∀ spec conv slot a, p = Piece.call spec conv slot a →
        (conv = 's' ∨ conv = 'S') → e.args slot = 0 →
        a = PrintfArg.argNullString := by
  intro p hp spec conv slot a hp' hs ha
  exact (dump_calls_spec e.args renderLen e.format.data 0 0 p hp
    spec conv slot a hp').2 hs ha

/-- A concrete entry with format `"%s"` and a zero argument slot, and a
unit-length rendering, used as witness input. -/
def entryNullStr : recorder_entry :=
  { timestamp := 0, order := 0, whereLoc := "t.c:1", format := "%s",
    args := fun _ => 0 }

/-- C7, witness: on format `"%s"` with slot 0 holding 0, the single
emitted call carries the `"<NULL>"` substitution. -/
theorem C7_null_string_rendered_witness :
    Piece.call ['%', 's'] 's' 0 PrintfArg.argNullString ∈
      recorder_dump_entry entryNullStr (fun _ _ => 1) ∧
    PrintfArg.argNullString = PrintfArg.argNullString :=
  ⟨by simp [recorder_dump_entry, entryNullStr, dumpLoop, scanSpec,
      isFloatConv, isIntConv, isFmtModifier, nullCheckedArg],
   C7_null_string_rendered entryNullStr (fun _ _ => 1) _
     (by simp [recorder_dump_entry, entryNullStr, dumpLoop, scanSpec,
        isFloatConv, isIntConv, isFmtModifier, nullCheckedArg])
     ['%', 's'] 's' 0 _ rfl (Or.inl rfl) rfl⟩

/-- C8: formatting one entry consumes at most `K = 4` argument slots: the
loop emits at most 4 argument-consuming `snprintf` calls, and every call
reads an argument slot of index below 4. -/
theorem C8_truncates_at_four (e : recorder_entry)
    (renderLen : List Char → PrintfArg → Nat) :
    (recorder_dump_entry e renderLen).countP isCallPiece ≤ 4 ∧
    (∀ p ∈ recorder_dump_entry e renderLen,
      ∀ spec conv slot a, p = Piece.call spec conv slot a → slot < 4) := by
  constructor
  · simpa using dump_calls_count e.args renderLen e.format.data 0 0
  · intro p hp spec conv slot a hp'
    exact (dump_calls_spec e.args renderLen e.format.data 0 0 p hp
      spec conv slot a hp').1.2

/-- A concrete entry referencing five arguments, used as witness input. -/
def entryFiveArgs : recorder_entry :=
  { timestamp := 0, order := 0, whereLoc := "t.c:2", format := "%d%d%d%d%d",
    args := fun i => Int.ofNat i + 1 }

/-- C8, witness: on a format with five conversions, the call count is
at most four, and the fourth (last) emitted call reads slot 3 < 4. -/
theorem C8_truncates_at_four_witness :
    Piece.call ['%', 'd'] 'd' 3 (PrintfArg.argWord 4) ∈
      recorder_dump_entry entryFiveArgs (fun _ _ => 1) ∧
    (recorder_dump_entry entryFiveArgs (fun _ _ => 1)).countP isCallPiece ≤ 4 ∧
    3 < 4 :=
  ⟨by simp [recorder_dump_entry, entryFiveArgs, dumpLoop, scanSpec,
      isFloatConv, isIntConv, isFmtModifier, nullCheckedArg],
   (C8_truncates_at_four entryFiveArgs (fun _ _ => 1)).1,
   (C8_truncates_at_four entryFiveArgs (fun _ _ => 1)).2
     (Piece.call ['%', 'd'] 'd' 3 (PrintfArg.argWord 4))
     (by simp [recorder_dump_entry, entryFiveArgs, dumpLoop, scanSpec,
        isFloatConv, isIntConv, isFmtModifier, nullCheckedArg])
     ['%', 'd'] 'd' 3 (PrintfArg.argWord 4) rfl⟩

/-!
## Global merge-dump (`recorder_sort`, recorder.c:300-353)

The per-recorder ring operations `readable()`, `peek()` and `read()` are
generated by the `RECORDER` macros of recorder.h, which is not under src/.
Modelled from the spec: the ring contract of section 4.1 — in a sequential
execution `readable()` is ring non-emptiness, `peek()` returns the oldest
committed entry, and `read()` removes it (the "catch-up" failure of
`read`, recorder.c:343-344, only arises from concurrent overrun and cannot
occur sequentially).  A recorder's ring is the list of its committed
entries, oldest first.
-/

/-- A registered recorder (`recorder_info` of recorder.h): its name, the
ring of committed entries (oldest first), the `trace` field (0 = off,
nonzero = print, `RECORDER_CHAN_MAGIC` = exported only), and the four
`exported` channel slots.  A channel handle is stood for by the exported
channel's name. -/
structure recorder_info where
  name : String
  ring : List recorder_entry := []
  trace : Int := 0
  exported : List (Option String) := [none, none, none, none]

/-- The largest `uintptr_t` value on a 64-bit platform: `~0UL`, the
initial value of `lowestOrder` (recorder.c:316). -/
def UINTPTR_MAX : Nat := 2 ^ 64 - 1

/-- The selection pass of `recorder_sort` (recorder.c:320-337): walk the
recorder list, skip recorders whose name does not fully match (the
full-match test of recorder.c:323-324 is the oracle `m`), peek readable
recorders, and keep the first recorder whose head order is strictly below
the running minimum.  Returns the chosen index and the minimal order. -/
def scanLowest (m : String → Bool) :
    List recorder_info → Nat → Option Nat × Nat → Option Nat × Nat
  | [], _, best => best
  | r :: rest, i, best =>
    scanLowest m rest (i + 1)
      (if m r.name then
         match r.ring.head? with
         | some e => if e.order < best.2 then (some i, e.order) else best
         | none => best
       else best)

/-- Total number of committed entries across all recorders (the
termination measure of the dump loop). -/
def sumRing (recs : List recorder_info) : Nat :=
  (recs.map (fun r => r.ring.length)).sum

theorem sumRing_set_lt (recs : List recorder_info) :
    ∀ (i : Nat) (r : recorder_info) (e : recorder_entry)
      (tail : List recorder_entry),
      recs[i]? = some r → r.ring = e :: tail →
      sumRing (recs.set i { r with ring := tail }) < sumRing recs := by
  induction recs with
  | nil => intro i r e tail h; simp at h
  | cons a l ih =>
    intro i r e tail h he
    cases i with
    | zero =>
      simp at h
      subst h
      simp [sumRing, he]
    | succ j =>
      simp at h
      have := ih j r e tail h he
      simp only [List.set, sumRing, List.map, List.sum_cons]
      exact Nat.add_lt_add_left (this) _

/-- The main loop of `recorder_sort` (recorder.c:314-348): repeatedly
select the matching readable recorder with the lowest head order, read
(pop) its head entry, emit it and count it; stop when no recorder is
selected.  Returns the emitted entries in order, the `dumped` counter, and
the final recorder state. -/
def sortLoop (m : String → Bool) (recs : List recorder_info) :
    List recorder_entry × Nat × List recorder_info :=
  match scanLowest m recs 0 (none, UINTPTR_MAX) with
  | (none, _) => ([], 0, recs)
  | (some i, _) =>
    match hr : recs[i]? with
    | none => ([], 0, recs)
    | some r =>
      match he : r.ring with
      | [] => ([], 0, recs)
      | e :: tail =>
        let res := sortLoop m (recs.set i { r with ring := tail })
        (e :: res.1, res.2.1 + 1, res.2.2)
  termination_by sumRing recs
  decreasing_by
    simp_wf
    exact sumRing_set_lt recs i r e tail hr he

/-- `recorder_sort` (recorder.c:300-353): `regcomp` of the pattern is the
oracle pair (`status_ok`, `m`); when compilation fails the loop body never
runs and 0 entries are dumped (recorder.c:312-314). -/
def recorder_sort (status_ok : Bool) (m : String → Bool)
    (recs : List recorder_info) :
    List recorder_entry × Nat × List recorder_info :=
  if status_ok then sortLoop m recs else ([], 0, recs)

theorem scan_snd_le (m : String → Bool) :
    ∀ (l : List recorder_info) (i : Nat) (b : Option Nat) (o : Nat),
      (scanLowest m l i (b, o)).2 ≤ o := by
  intro l
  induction l with
  | nil => intro i b o; simp [scanLowest]
  | cons r rest ih =>
    intro i b o
    simp only [scanLowest]
    by_cases hm : m r.name
    · simp only [hm, if_true]
      cases hh : r.ring.head? with
      | none => exact ih _ _ _
      | some e =>
        by_cases ho : e.order < o
        · simp only [ho, if_pos]
          exact le_trans (ih _ _ _) (le_of_lt ho)
        · simp only [ho, if_neg]
          exact ih _ _ _
    · simp only [hm, Bool.false_eq_true, if_false]
      exact ih _ _ _

theorem scan_min (m : String → Bool) :
    ∀ (l : List recorder_info) (i : Nat) (b : Option Nat) (o : Nat)
      (r : recorder_info), r ∈ l → m r.name →
      ∀ e, r.ring.head? = some e → (scanLowest m l i (b, o)).2 ≤ e.order := by
  intro l
  induction l with
  | nil => intro i b o r hr; simp at hr
  | cons a rest ih =>
    intro i b o r hr hm e he
    rcases List.mem_cons.mp hr with hr | hr
    · subst hr
      simp only [scanLowest, hm, if_true, he]
      by_cases ho : e.order < o
      · simp only [ho, if_pos]
        exact scan_snd_le m rest (i + 1) _ _
      · simp only [ho, if_neg]
        exact le_trans (scan_snd_le m rest (i + 1) _ _) (le_of_not_lt ho)
    · simp only [scanLowest]
      exact ih _ _ _ r hr hm e he

theorem scan_some_stays (m : String → Bool) :
    ∀ (l : List recorder_info) (i : Nat) (j : Nat) (o : Nat),
      (scanLowest m l i (some j, o)).1 ≠ none := by
  intro l
  induction l with
  | nil => intro i j o; simp [scanLowest]
  | cons a rest ih =>
    intro i j o
    simp only [scanLowest]
    by_cases hm : m a.name
    · simp only [hm, if_true]
      cases hh : a.ring.head? with
      | none => exact ih _ _ _
      | some e =>
        by_cases ho : e.order < o
        · simp only [ho, if_pos]; exact ih _ _ _
        · simp only [ho, if_neg]; exact ih _ _ _
    · simp only [hm, Bool.false_eq_true, if_false]; exact ih _ _ _

theorem scan_none (m : String → Bool) :
    ∀ (l : List recorder_info) (i : Nat) (b : Option Nat) (o : Nat),
      (scanLowest m l i (b, o)).1 = none →
      b = none ∧
      ∀ r ∈ l, m r.name → ∀ e, r.ring.head? = some e → ¬(e.order < o) := by
  intro l
  induction l with
  | nil =>
    intro i b o h
    simp [scanLowest] at h
    exact ⟨h, by simp⟩
  | cons a rest ih =>
    intro i b o h
    simp only [scanLowest] at h
    by_cases hm : m a.name
    · simp only [hm, if_true] at h
      cases hh : a.ring.head? with
      | none =>
        simp only [hh] at h
        have := ih _ _ _ h
        refine ⟨this.1, ?_⟩
        intro r hr hm' e he
        rcases List.mem_cons.mp hr with hr | hr
        · subst hr; rw [hh] at he; cases he
        · exact this.2 r hr hm' e he
      | some e =>
        simp only [hh] at h
        by_cases ho : e.order < o
        · rw [if_pos ho] at h
          exact absurd h (scan_some_stays m rest (i + 1) i e.order)
        · rw [if_neg ho] at h
          have := ih _ _ _ h
          refine ⟨this.1, ?_⟩
          intro r hr hm' e' he'
          rcases List.mem_cons.mp hr with hr | hr
          · subst hr; rw [hh] at he'
            cases he'; exact ho
          · exact this.2 r hr hm' e' he'
    · simp only [hm, Bool.false_eq_true, if_false] at h
      have := ih _ _ _ h
      refine ⟨this.1, ?_⟩
      intro r hr hm' e he
      rcases List.mem_cons.mp hr with hr | hr
      · subst hr; exact absurd hm' hm
      · exact this.2 r hr hm' e he

theorem scan_some (m : String → Bool) :
    ∀ (l : List recorder_info) (i : Nat) (b : Option Nat) (o : Nat)
      (k o' : Nat), scanLowest m l i (b, o) = (some k, o') →
      (some k = b ∧ o' = o) ∨
      ∃ j r e, l[j]? = some r ∧ k = i + j ∧ m r.name = true ∧
        r.ring.head? = some e ∧ e.order = o' := by
  intro l
  induction l with
  | nil =>
    intro i b o k o' h
    simp [scanLowest] at h
    exact Or.inl ⟨h.1.symm, h.2.symm⟩
  | cons a rest ih =>
    intro i b o k o' h
    simp only [scanLowest] at h
    by_cases hm : m a.name
    · simp only [hm, if_true] at h
      cases hh : a.ring.head? with
      | none =>
        simp only [hh] at h
        rcases ih _ _ _ _ _ h with h' | ⟨j, r, e, hj, hk, hmr, he, ho⟩
        · exact Or.inl h'
        · exact Or.inr ⟨j + 1, r, e, by simpa using hj, by omega, hmr, he, ho⟩
      | some e =>
        simp only [hh] at h
        by_cases ho : e.order < o
        · rw [if_pos ho] at h
          rcases ih _ _ _ _ _ h with ⟨h1, h2⟩ | ⟨j, r, e', hj, hk, hmr, he', ho'⟩
          · cases h1
            exact Or.inr ⟨0, a, e, by simp, by omega, hm, hh, h2.symm⟩
          · exact Or.inr ⟨j + 1, r, e', by simpa using hj, by omega, hmr, he', ho'⟩
        · rw [if_neg ho] at h
          rcases ih _ _ _ _ _ h with h' | ⟨j, r, e', hj, hk, hmr, he', ho'⟩
          · exact Or.inl h'
          · exact Or.inr ⟨j + 1, r, e', by simpa using hj, by omega, hmr, he', ho'⟩
    · simp only [hm, Bool.false_eq_true, if_false] at h
      rcases ih _ _ _ _ _ h with h' | ⟨j, r, e', hj, hk, hmr, he', ho'⟩
      · exact Or.inl h'
      · exact Or.inr ⟨j + 1, r, e', by simpa using hj, by omega, hmr, he', ho'⟩

theorem scan_no_cand (m : String → Bool) :
    ∀ (l : List recorder_info) (i : Nat) (b : Option Nat) (o : Nat),
      (∀ r ∈ l, m r.name → r.ring = []) →
      scanLowest m l i (b, o) = (b, o) := by
  intro l
  induction l with
  | nil => intro i b o _; rfl
  | cons a rest ih =>
    intro i b o hall
    simp only [scanLowest]
    by_cases hm : m a.name
    · have : a.ring = [] := hall a (List.mem_cons_self _ _) hm
      simp only [hm, if_true, this, List.head?_nil]
      exact ih _ _ _ (fun r hr => hall r (List.mem_cons_of_mem _ hr))
    · simp only [hm, Bool.false_eq_true, if_false]
      exact ih _ _ _ (fun r hr => hall r (List.mem_cons_of_mem _ hr))

def entryLE (a b : recorder_entry) : Prop := a.order ≤ b.order

instance : DecidableRel entryLE := fun a b => Nat.decLe a.order b.order

theorem sorted_head_le (l : List recorder_entry) (e x : recorder_entry)
    (hl : l.Sorted entryLE) (he : l.head? = some e) (hx : x ∈ l) :
    e.order ≤ x.order := by
  cases l with
  | nil => cases hx
  | cons a t =>
    simp at he
    subst he
    rcases List.mem_cons.mp hx with hx | hx
    · subst hx; exact le_refl _
    · exact (List.sorted_cons.mp hl).1 x hx

def ringsSorted (m : String → Bool) (recs : List recorder_info) : Prop :=
  ∀ r ∈ recs, m r.name → r.ring.Sorted entryLE

def ordersBounded (m : String → Bool) (recs : List recorder_info) : Prop :=
  ∀ r ∈ recs, m r.name → ∀ e ∈ r.ring, e.order < UINTPTR_MAX

theorem ring_length_le_sumRing (recs : List recorder_info)
    (r : recorder_info) (h : r ∈ recs) : r.ring.length ≤ sumRing recs := by
  induction recs with
  | nil => cases h
  | cons a l ih =>
    rcases List.mem_cons.mp h with h' | h'
    · subst h'; simp [sumRing]
    · have := ih h'
      simp only [sumRing, List.map_cons, List.sum_cons] at this ⊢
      omega

theorem sortLoop_spec (m : String → Bool) :
    ∀ (n : Nat) (recs : List recorder_info), sumRing recs ≤ n →
      ringsSorted m recs → ordersBounded m recs →
      (sortLoop m recs).2.1 = (sortLoop m recs).1.length ∧
      (sortLoop m recs).1.Sorted entryLE ∧
      (∀ x ∈ (sortLoop m recs).1, ∃ r ∈ recs, m r.name = true ∧ x ∈ r.ring) := by
  intro n
  induction n with
  | zero =>
    intro recs hn hsorted hbound
    rw [sortLoop.eq_def]
    split
    · simp
    · split
      · simp
      · split
        · simp
        · rename_i i o hs r hr e tail he
          exfalso
          have h1 := ring_length_le_sumRing recs r (List.getElem?_mem hr)
          rw [he] at h1
          simp at h1
          omega
  | succ k ih =>
    intro recs hn hsorted hbound
    rw [sortLoop.eq_def]
    split
    · simp
    · split
      · simp
      · split
        · simp
        · rename_i i o hs r hr e tail he
          -- facts from the selector
          have hsome := scan_some m recs 0 none UINTPTR_MAX i o hs
          rcases hsome with ⟨h1, _⟩ | ⟨j, r0, e0, hj, hk, hm0, he0, ho0⟩
          · cases h1
          have hji : j = i := by omega
          rw [hji] at hj
          rw [hr] at hj
          have hrr : r = r0 := Option.some.inj hj
          rw [← hrr] at hm0 he0
          have hhead : r.ring.head? = some e := by rw [he]; rfl
          rw [hhead] at he0
          have hee : e0 = e := (Option.some.inj he0).symm
          rw [hee] at ho0
          -- minimality of the selected order
          have hmin : ∀ r' ∈ recs, m r'.name → ∀ e', r'.ring.head? = some e' →
              e.order ≤ e'.order := by
            intro r' hr' hm' e' he'
            have hle := scan_min m recs 0 none UINTPTR_MAX r' hr' hm' e' he'
            rw [hs] at hle
            simp at hle
            rw [ho0]
            exact hle
          have hmem : r ∈ recs := List.getElem?_mem hr
          -- preserved invariants on the popped state
          have hsorted' : ringsSorted m (recs.set i { r with ring := tail }) := by
            intro r' hr' hm'
            rcases List.mem_or_eq_of_mem_set hr' with h' | h'
            · exact hsorted r' h' hm'
            · subst h'
              have h2 := hsorted r hmem hm0
              rw [he] at h2
              exact (List.sorted_cons.mp h2).2
          have hbound' : ordersBounded m (recs.set i { r with ring := tail }) := by
            intro r' hr' hm' e' he'
            rcases List.mem_or_eq_of_mem_set hr' with h' | h'
            · exact hbound r' h' hm' e' he'
            · subst h'
              exact hbound r hmem hm0 e' (by rw [he]; exact List.mem_cons_of_mem _ he')
          have hn' : sumRing (recs.set i { r with ring := tail }) ≤ k := by
            have := sumRing_set_lt recs i r e tail hr he
            omega
          have IH := ih _ hn' hsorted' hbound'
          refine ⟨by simpa using IH.1, ?_, ?_⟩
          · -- sortedness of the cons
            rw [List.sorted_cons]
            refine ⟨?_, IH.2.1⟩
            intro x hx
            rcases IH.2.2 x hx with ⟨r', hr', hm', hxr⟩
            rcases List.mem_or_eq_of_mem_set hr' with h' | h'
            · cases hring : r'.ring with
              | nil => rw [hring] at hxr; cases hxr
              | cons a t =>
                have hh : r'.ring.head? = some a := by rw [hring]; rfl
                have h1 := hmin r' h' hm' a hh
                have h2 : a.order ≤ x.order :=
                  sorted_head_le r'.ring a x (hsorted r' h' hm') hh hxr
                exact le_trans h1 h2
            · subst h'
              have h2 := hsorted r hmem hm0
              rw [he] at h2
              exact (List.sorted_cons.mp h2).1 x hxr
          · -- provenance of emitted entries
            intro x hx
            rcases List.mem_cons.mp hx with rfl | hx
            · exact ⟨r, hmem, hm0, by rw [he]; exact List.mem_cons_self _ _⟩
            · rcases IH.2.2 x hx with ⟨r', hr', hm', hxr⟩
              rcases List.mem_or_eq_of_mem_set hr' with h' | h'
              · exact ⟨r', h', hm', hxr⟩
              · subst h'
                exact ⟨r, hmem, hm0, by rw [he]; exact List.mem_cons_of_mem _ hxr⟩

theorem sortLoop_empty (m : String → Bool) (recs : List recorder_info)
    (h : ∀ r ∈ recs, m r.name → r.ring = []) :
    sortLoop m recs = ([], 0, recs) := by
  have hscan := scan_no_cand m recs 0 none UINTPTR_MAX h
  rw [sortLoop.eq_def]
  split
  · rfl
  · rename_i i o hs
    rw [hscan] at hs
    cases hs

/-- C1: each iteration of `recorder_sort` selects, among the recorders
whose name fully matches the pattern and whose ring is non-empty, the one
whose head entry has the smallest order; given that every matching ring
holds its entries in non-decreasing order (orders are drawn from the
process-wide monotonic counter) and below `~0UL`, the emitted sequence is
non-decreasing in order, every emitted entry comes from a matching
recorder's ring, the returned value is exactly the number of entries
emitted, and it is 0 — with nothing emitted and no state change — when no
matching recorder has a readable entry. -/
theorem C1_recorder_sort_ordered (ok : Bool) (m : String → Bool)
    (recs : List recorder_info)
    (h1 : ∀ r ∈ recs, m r.name → r.ring.Sorted entryLE)
    (h2 : ∀ r ∈ recs, m r.name → ∀ e ∈ r.ring, e.order < UINTPTR_MAX) :
    (recorder_sort ok m recs).2.1 = (recorder_sort ok m recs).1.length ∧
    (recorder_sort ok m recs).1.Sorted entryLE ∧
    (∀ x ∈ (recorder_sort ok m recs).1,
       ∃ r ∈ recs, m r.name = true ∧ x ∈ r.ring) ∧
    ((∀ r ∈ recs, m r.name → r.ring = []) →
       recorder_sort ok m recs = ([], 0, recs)) := by
  cases ok with
  | false => simp [recorder_sort]
  | true =>
    have hspec := sortLoop_spec m (sumRing recs) recs (le_refl _) h1 h2
    exact ⟨by simpa [recorder_sort] using hspec.1,
           by simpa [recorder_sort] using hspec.2.1,
           by simpa [recorder_sort] using hspec.2.2,
           fun h => by simpa [recorder_sort] using sortLoop_empty m recs h⟩

def entryW (o : Nat) : recorder_entry :=
  { timestamp := o, order := o, whereLoc := "w.c:1", format := "%u",
    args := fun _ => 0 }

def recsW : List recorder_info :=
  [ { name := "alpha", ring := [entryW 1, entryW 4] },
    { name := "skip", ring := [entryW 0] },
    { name := "beta", ring := [entryW 2] } ]

def mW : String → Bool := fun n => n ≠ "skip"

/-- C1, witness: three concrete recorders, one excluded by the pattern;
the hypotheses are discharged by evaluation. -/
theorem C1_recorder_sort_ordered_witness :
    (∀ r ∈ recsW, mW r.name → r.ring.Sorted entryLE) ∧
    (∀ r ∈ recsW, mW r.name → ∀ e ∈ r.ring, e.order < UINTPTR_MAX) ∧
    ((recorder_sort true mW recsW).2.1 = (recorder_sort true mW recsW).1.length ∧
     (recorder_sort true mW recsW).1.Sorted entryLE ∧
     (∀ x ∈ (recorder_sort true mW recsW).1,
        ∃ r ∈ recsW, mW r.name = true ∧ x ∈ r.ring) ∧
     ((∀ r ∈ recsW, mW r.name → r.ring = []) →
        recorder_sort true mW recsW = ([], 0, recsW))) :=
  ⟨by decide, by decide,
   C1_recorder_sort_ordered true mW recsW (by decide) (by decide)⟩

/-!
## Configuration language (`recorder_trace_set`, recorder.c:1410-1587,
`recorder_export`, recorder.c:1354-1406, `recorder_share`,
recorder.c:1330-1351)

`regcomp`/`regexec` are the oracles `rxValid` (pattern compiles) and
`rxMatch` (full match of a name).  The shared-memory channel set is
abstracted to the list of channel names it holds; `recorder_chans_new`'s
success path is modelled (open/mmap failure returns NULL in C and merely
disables the export).  The stack-buffer/heap-fallback copying of long
directives (recorder.c:1444-1458, 1462-1477) is semantically the directive
split itself and is modelled as such.  The `RECORD(recorder_traces, ...)`
self-tracing entries do not affect traces, tweaks or channels and are not
modelled.
-/

/-- Return codes of `recorder_trace_set`.  Modelled from the spec:
recorder.h is not under src/; the source's NULL path returns the literal
`0` (recorder.c:1426) and the spec names the codes OK / INVALID_NAME /
INVALID_VALUE; the two error values are distinct nonzero codes. -/
def RECORDER_TRACE_OK : Int := 0
def RECORDER_TRACE_INVALID_NAME : Int := -1
def RECORDER_TRACE_INVALID_VALUE : Int := -2

/-- A named tweak (`recorder_tweak` of recorder.h): name and value. -/
structure recorder_tweak where
  name : String
  tweak : Int

/-- The process state `recorder_trace_set` manipulates: the global
recorder list, the global tweak list, and the lazily created shared
channel set (recorder.c:1330). -/
structure trace_state where
  recorders : List recorder_info
  tweaks : List recorder_tweak
  chans : Option (List String)

/-- C's `isdigit` on the characters the directives contain. -/
def isDigitChar (c : Char) : Bool := '0' ≤ c ∧ c ≤ '9'
def isOctChar (c : Char) : Bool := '0' ≤ c ∧ c ≤ '7'
def isHexChar (c : Char) : Bool :=
  isDigitChar c ∨ ('a' ≤ c ∧ c ≤ 'f') ∨ ('A' ≤ c ∧ c ≤ 'F')
def digitVal (c : Char) : Nat := c.toNat - '0'.toNat
def hexVal (c : Char) : Nat :=
  if isDigitChar c then digitVal c
  else if 'a' ≤ c ∧ c ≤ 'f' then c.toNat - 'a'.toNat + 10
  else c.toNat - 'A'.toNat + 10

def parseDigits (base : Nat) (isD : Char → Bool) (val : Char → Nat) :
    List Char → Nat → Nat × List Char
  | [], acc => (acc, [])
  | c :: rest, acc =>
    if isD c then parseDigits base isD val rest (acc * base + val c)
    else (acc, c :: rest)

def LONG_MAX : Int := 2 ^ 63 - 1

/-- `strtol(value_ptr, &end, 0)` as called at recorder.c:1482: base 0
(decimal, or `0x`-prefixed hex, or `0`-prefixed octal), returning the
parsed `long` (clamped to LONG_MAX on overflow) and the end pointer.  The
call site guards with `isdigit(*value_ptr)` (recorder.c:1479), so the
leading-whitespace/sign handling of strtol is unreachable and not
modelled. -/
def strtol0 (l : List Char) : Int × List Char :=
  let p :=
    match l with
    | '0' :: x :: rest =>
      if x = 'x' ∨ x = 'X' then
        match rest with
        | c :: _ => if isHexChar c then parseDigits 16 isHexChar hexVal rest 0
                    else (0, x :: rest)
        | [] => (0, x :: rest)
      else parseDigits 8 isOctChar digitVal (x :: rest) 0
    | l => parseDigits 10 isDigitChar digitVal l 0
  (if (p.1 : Int) > LONG_MAX then LONG_MAX else (p.1 : Int), p.2)

/-- The conversion `int value = strtol(...)` (recorder.c:1434, 1482):
the `long` result is truncated to a 32-bit two's-complement `int`. -/
def toInt32 (n : Int) : Int := (n + 2 ^ 31) % 2 ^ 32 - 2 ^ 31

/-- The iterated `strpbrk(param, ": ")` split of the directive string
(recorder.c:1431-1458) and the `strchr(next, ',')` split of an export
list (recorder.c:1367-1377): cut at each separator, keeping empty
pieces. -/
def splitSep (isSep : Char → Bool) : List Char → List Char → List (List Char)
  | [], acc => [acc.reverse]
  | c :: rest, acc =>
    if isSep c then acc.reverse :: splitSep isSep rest []
    else splitSep isSep rest (c :: acc)

/-- The `strchr(param, '=')` split (recorder.c:1461-1478): name before
the first `=`, value after it, no value when there is no `=`. -/
def splitEq : List Char → List Char × Option (List Char)
  | [] => ([], none)
  | c :: rest =>
    if c = '=' then ([], some rest)
    else
      let p := splitEq rest
      (c :: p.1, p.2)

/-- The recorder-side effects of `recorder_chans_delete`
(recorder.c:521-549): every recorder whose trace is the "exported only"
sentinel is reset to 0, all exported slots are cleared, and the channel
set is gone. -/
def recorder_chans_delete_effects (st : trace_state) : trace_state :=
  { st with
    recorders := st.recorders.map (fun r =>
      { r with
        trace := if r.trace = RECORDER_CHAN_MAGIC then 0 else r.trace,
        exported := [none, none, none, none] }),
    chans := none }

/-- `recorder_share` (recorder.c:1340-1351): delete the current channel
set if any, then create a new one at `path` (`recorder_chans_new(NULL)`
returns NULL; creation success is modelled). -/
def recorder_share (st : trace_state) (path : Option String) : trace_state :=
  let st1 := if st.chans ≠ none then recorder_chans_delete_effects st else st
  { st1 with chans := match path with | none => none | some _ => some [] }

/-- The per-name loop of `recorder_export` (recorder.c:1369-1403): for
each of up to 4 comma-separated names, delete the old channel exported in
slot `t`, create a channel under the (possibly `recorder/`-prefixed) name,
store it in slot `t`, and set the trace to the "exported only" sentinel if
it was 0. -/
def exportLoop (multi : Bool) :
    List String → recorder_info → List (List Char) → Nat →
    List String × recorder_info
  | cs, rec, [], _ => (cs, rec)
  | cs, rec, name :: rest, t =>
    let cs1 := match rec.exported.getD t none with
               | some old => cs.erase old
               | none => cs
    let chan_name := if multi then rec.name ++ "/" ++ String.mk name
                     else String.mk name
    let cs2 := chan_name :: cs1
    let rec1 := { rec with
                  exported := rec.exported.set t (some chan_name),
                  trace := if rec.trace = 0 then RECORDER_CHAN_MAGIC
                           else rec.trace }
    exportLoop multi cs2 rec1 rest (t + 1)

/-- `recorder_export` (recorder.c:1354-1406).  When no channel set exists
it is created first via `recorder_share(recorder_export_file())`
(recorder.c:1359-1364).  `strdup(value)` with `value = NULL` — reached
when a non-numerical directive has no `=value` part — is undefined
behaviour (a crash on common libcs), modelled as `none`. -/
def recorder_export (chans : Option (List String)) (rec : recorder_info)
    (value : Option String) (multi : Bool) :
    Option (List String × recorder_info) :=
  let cs := match chans with | none => [] | some cs => cs
  match value with
  | none => none
  | some v =>
    let names := (splitSep (fun c => c = ',') v.data []).take 4
    some (exportLoop multi cs rec names 0)

/-- The export dispatch loop (recorder.c:1558-1569): call
`recorder_export` on every recorder whose name fully matches, threading
the channel set through. -/
def exportMatching (rxMatch : String → String → Bool) (pat : String)
    (value : Option String) (multi : Bool) :
    List recorder_info → Option (List String) →
    Option (List recorder_info × Option (List String))
  | [], chans => some ([], chans)
  | r :: rest, chans =>
    if rxMatch pat r.name then
      match recorder_export chans r value multi with
      | none => none
      | some (cs, r') =>
        match exportMatching rxMatch pat value multi rest (some cs) with
        | none => none
        | some (rest', cs') => some (r' :: rest', cs')
    else
      match exportMatching rxMatch pat value multi rest chans with
      | none => none
      | some (rest', cs') => some (r :: rest', cs')

/-- One iteration of `recorder_trace_set`'s directive loop
(recorder.c:1431-1584): split off the `=value` part, classify it as
numerical iff it starts with a digit (default value 1 otherwise, unused),
flag trailing garbage after the integer, handle the special names `help`,
`list`, `share` and the alias `all`, and either set matching traces and
tweaks (numerical) or export matching recorders (non-numerical). -/
def processDirective (rxValid : String → Bool)
    (rxMatch : String → String → Bool) (st : trace_state) (rc : Int)
    (dir : List Char) : Option (trace_state × Int) :=
  let p := splitEq dir
  let param : String := String.mk p.1
  let value_ptr := p.2
  let numerical := match value_ptr with
    | some (c :: _) => isDigitChar c
    | _ => false
  let parsed := match value_ptr with
    | some v => strtol0 v
    | none => (1, [])
  let value : Int := if numerical = true then toInt32 parsed.1 else 1
  let rc1 := if numerical = true ∧ parsed.2 ≠ [] then RECORDER_TRACE_INVALID_VALUE
             else rc
  if param = "help" ∨ param = "list" then some (st, rc1)
  else if param = "share" then
    some (recorder_share st (value_ptr.map String.mk), rc1)
  else
    let pat := if param = "all" then ".*" else param
    if rxValid pat then
      if numerical = true then
        some ({ st with
          recorders := st.recorders.map (fun r =>
            if rxMatch pat r.name then { r with trace := value } else r),
          tweaks := st.tweaks.map (fun t =>
            if rxMatch pat t.name then { t with tweak := value } else t) },
          rc1)
      else
        let nmatches :=
          (st.recorders.filter (fun r => rxMatch pat r.name)).length
        match exportMatching rxMatch pat (value_ptr.map String.mk)
                (nmatches > 1) st.recorders st.chans with
        | none => none
        | some (recs', chans') =>
          some ({ st with recorders := recs', chans := chans' }, rc1)
    else some (st, RECORDER_TRACE_INVALID_NAME)

/-- The do-while over directives (recorder.c:1431-1584). -/
def traceSetLoop (rxValid : String → Bool)
    (rxMatch : String → String → Bool) :
    List (List Char) → trace_state → Int → Option (Int × trace_state)
  | [], st, rc => some (rc, st)
  | d :: rest, st, rc =>
    match processDirective rxValid rxMatch st rc d with
    | none => none
    | some (st', rc') => traceSetLoop rxValid rxMatch rest st' rc'

/-- `recorder_trace_set` (recorder.c:1410-1587): NULL input returns 0
immediately (recorder.c:1425-1426); otherwise the input is split at `:`
and space and each directive is processed in turn.  The returned code is
the last error assigned, or OK. -/
def recorder_trace_set (rxValid : String → Bool)
    (rxMatch : String → String → Bool) (param_spec : Option String)
    (st : trace_state) : Option (Int × trace_state) :=
  match param_spec with
  | none => some (0, st)
  | some spec =>
    traceSetLoop rxValid rxMatch
      (splitSep (fun c => c = ':' ∨ c = ' ') spec.data []) st
      RECORDER_TRACE_OK

theorem splitSep_no_sep (isSep : Char → Bool) :
    ∀ (l acc : List Char), (∀ c ∈ l, isSep c = false) →
      splitSep isSep l acc = [acc.reverse ++ l] := by
  intro l
  induction l with
  | nil => intro acc h; simp [splitSep]
  | cons c rest ih =>
    intro acc h
    have hc : isSep c = false := h c (List.mem_cons_self _ _)
    simp only [splitSep, hc, Bool.false_eq_true, if_false]
    rw [ih (c :: acc) (fun x hx => h x (List.mem_cons_of_mem _ hx))]
    simp

theorem splitSep_ne_nil (isSep : Char → Bool) :
    ∀ (l acc : List Char), splitSep isSep l acc ≠ [] := by
  intro l
  induction l with
  | nil => intro acc; simp [splitSep]
  | cons c rest ih =>
    intro acc
    simp only [splitSep]
    by_cases hc : isSep c = true
    · simp [hc]
    · simp only [hc, if_false]
      exact ih _

theorem splitEq_no_eq :
    ∀ (name v : List Char), (∀ c ∈ name, ¬c = '=') →
      splitEq (name ++ '=' :: v) = (name, some v) := by
  intro name
  induction name with
  | nil => intro v h; simp [splitEq]
  | cons c rest ih =>
    intro v h
    have hc : ¬c = '=' := h c (List.mem_cons_self _ _)
    simp only [List.cons_append, splitEq, hc, if_neg, ite_false]
    simp [ih v (fun x hx => h x (List.mem_cons_of_mem _ hx))]

theorem exportLoop_trace (multi : Bool) :
    ∀ (names : List (List Char)) (cs : List String)
      (rec : recorder_info) (t : Nat),
      (exportLoop multi cs rec names t).2.trace =
        if names = [] then rec.trace
        else if rec.trace = 0 then RECORDER_CHAN_MAGIC else rec.trace := by
  intro names
  induction names with
  | nil => intro cs rec t; simp [exportLoop]
  | cons name rest ih =>
    intro cs rec t
    simp only [exportLoop, ih]
    by_cases h0 : rec.trace = 0
    · simp only [h0, if_pos rfl]
      cases rest with
      | nil => simp
      | cons a l =>
        simp only [if_neg (by simp : ¬(a :: l : List (List Char)) = [])]
        simp [RECORDER_CHAN_MAGIC]
    · simp only [if_neg h0]
      cases rest with
      | nil => simp
      | cons a l =>
        simp only [if_neg (by simp : ¬(a :: l : List (List Char)) = [])]
        simp [h0]

/-- Modelled from the spec (section 4.2 step 4; the `RECORD` macro and
`recorder_trace_entry`, recorder.c:1005-1007): an emission prints
synchronously iff `trace` is nonzero and not the "exported only app"
sentinel. -/
def syncPrints (trace : Int) : Bool :=
  decide (trace ≠ 0 ∧ trace ≠ RECORDER_CHAN_MAGIC)

/-- C4: when a string-form directive exports a recorder's slots, the
trace field is set to the "exported only" sentinel exactly when it was
previously 0; a nonzero trace keeps its value, so export alone never
enables synchronous printing and never disables an enabled trace. -/
theorem C4_export_trace_sentinel (chans : Option (List String))
    (rec : recorder_info) (v : String) (multi : Bool) :
    ∀ cs' rec', recorder_export chans rec (some v) multi = some (cs', rec') →
      rec'.trace = (if rec.trace = 0 then RECORDER_CHAN_MAGIC else rec.trace) ∧
      (rec.trace = 0 → rec'.trace = RECORDER_CHAN_MAGIC) ∧
      (rec.trace ≠ 0 → rec'.trace = rec.trace) ∧
      syncPrints rec'.trace = syncPrints rec.trace := by
  intro cs' rec' h
  have hnames : (splitSep (fun c => c = ',') v.data []).take 4 ≠ [] := by
    cases hsp : splitSep (fun c => c = ',') v.data [] with
    | nil => exact absurd hsp (splitSep_ne_nil _ _ _)
    | cons a l => simp
  have key : ∀ (base : List String),
      exportLoop multi base rec
        ((splitSep (fun c => c = ',') v.data []).take 4) 0 = (cs', rec') →
      rec'.trace = if rec.trace = 0 then RECORDER_CHAN_MAGIC else rec.trace := by
    intro base hb
    have ht := exportLoop_trace multi
      ((splitSep (fun c => c = ',') v.data []).take 4) base rec 0
    rw [if_neg hnames, hb] at ht
    exact ht
  have htr : rec'.trace =
      if rec.trace = 0 then RECORDER_CHAN_MAGIC else rec.trace := by
    cases chans with
    | none =>
      simp only [recorder_export] at h
      exact key [] (Option.some.inj h)
    | some cs0 =>
      simp only [recorder_export] at h
      exact key cs0 (Option.some.inj h)
  refine ⟨htr, ?_, ?_, ?_⟩
  · intro h0; rw [htr, if_pos h0]
  · intro h0; rw [htr, if_neg h0]
  · rw [htr]
    by_cases h0 : rec.trace = 0
    · rw [if_pos h0, h0]
      decide
    · rw [if_neg h0]

/-- C3, amended.  For every single-directive `NAME=INTEGER` where `NAME`
is none of the reserved words `help`, `list`, `share`, `all` and compiles
as a regex, and `INTEGER` begins with a decimal digit and is fully
consumed by `strtol` base 0 (decimal, octal or hex, no sign — a value
starting with `-` or `+` is treated as a string and takes the export
path), `recorder_trace_set` sets `trace := (int)INTEGER` (the strtol
result truncated to 32-bit int) for every recorder whose name fully
matches, `tweak := (int)INTEGER` for every matching tweak, leaves
non-matching recorders, non-matching tweaks and the channel set
unchanged, and returns OK. -/
theorem C3_numeric_directive_amended (rxValid : String → Bool)
    (rxMatch : String → String → Bool) (st : trace_state)
    (name : List Char) (c : Char) (rest : List Char)
    (hname : ∀ x ∈ name, ¬(x = ':' ∨ x = ' ' ∨ x = '='))
    (hv : ∀ x ∈ c :: rest, ¬(x = ':' ∨ x = ' '))
    (hd : isDigitChar c = true)
    (hfull : (strtol0 (c :: rest)).2 = [])
    (hhelp : String.mk name ≠ "help") (hlist : String.mk name ≠ "list")
    (hshare : String.mk name ≠ "share") (hall : String.mk name ≠ "all")
    (hvalid : rxValid (String.mk name) = true) :
    recorder_trace_set rxValid rxMatch
        (some (String.mk (name ++ '=' :: c :: rest))) st =
      some (RECORDER_TRACE_OK,
        { st with
          recorders := st.recorders.map (fun r =>
            if rxMatch (String.mk name) r.name then
              { r with trace := toInt32 (strtol0 (c :: rest)).1 } else r),
          tweaks := st.tweaks.map (fun t =>
            if rxMatch (String.mk name) t.name then
              { t with tweak := toInt32 (strtol0 (c :: rest)).1 } else t) }) := by
  have hsep : ∀ x ∈ name ++ '=' :: c :: rest,
      (fun ch => decide (ch = ':' ∨ ch = ' ')) x = false := by
    intro x hx
    rcases List.mem_append.mp hx with hx | hx
    · have hx' := hname x hx
      push_neg at hx'
      simp [hx'.1, hx'.2.1]
    · rcases List.mem_cons.mp hx with rfl | hx
      · decide
      · have hx' := hv x hx
        push_neg at hx'
        simp [hx'.1, hx'.2]
  have heqname : ∀ x ∈ name, ¬x = '=' := by
    intro x hx
    have hx' := hname x hx
    push_neg at hx'
    exact hx'.2.2
  simp only [recorder_trace_set]
  rw [splitSep_no_sep _ _ _ hsep]
  simp only [List.reverse_nil, List.nil_append, traceSetLoop]
  rw [processDirective.eq_def]
  rw [splitEq_no_eq name (c :: rest) heqname]
  simp only [hd, if_pos, ite_true, hfull, ne_eq, not_true_eq_false, and_false,
    if_false, if_neg (by simp [hhelp, hlist] :
      ¬(String.mk name = "help" ∨ String.mk name = "list")),
    if_neg hshare, if_neg hall, hvalid, if_true, RECORDER_TRACE_OK]

/-- A state with one registered recorder named `deleting` (registered by
recorder.c:519 itself), trace off, no channel set. -/
def stBareName : trace_state :=
  { recorders := [{ name := "deleting" }], tweaks := [], chans := none }

/-- C2, evaluation at the failing input.  For the bare directive
`"deleting"` the default `value = 1` (recorder.c:1434) is never used:
`numerical` remains false because there is no `=` (recorder.c:1479-1482),
so `recorder_trace_set` takes the non-numerical export branch
(recorder.c:1549-1569) and calls `recorder_export` with `value_ptr ==
NULL`, reaching `strdup(NULL)` (recorder.c:1366) — undefined behaviour
(modelled `none`) — instead of setting the matching recorder's trace
to 1 as the claim, the spec, and the source's own comment "Default value
is 1 if not specified" all state. -/
theorem C2_bare_name_takes_export_path :
    (recorder_trace_set (fun _ => true) (fun p n => p == n)
        (some "deleting") stBareName).isNone = true := by decide

/-- A state with one matching recorder (trace 7) and one matching tweak
(value 5). -/
def stNumName : trace_state :=
  { recorders := [{ name := "deleting", trace := 7 }],
    tweaks := [{ name := "deleting", tweak := 5 }], chans := none }

/-- C3, counterexample.  `-1` is an integer in decimal notation as
accepted by strtol, but `isdigit('-')` is false (recorder.c:1479), so the
directive `"deleting=-1"` is treated as a string form: the recorder's
trace stays 7 (not −1), the tweak stays 5 (not −1), and a channel named
`"-1"` is exported instead. -/
theorem C3_counterexample :
    (recorder_trace_set (fun _ => true) (fun p n => p == n)
        (some "deleting=-1") stNumName).map
      (fun p => (p.1, p.2.recorders.map (fun r => r.trace),
                 p.2.tweaks.map (fun t => t.tweak), p.2.chans)) =
      some (RECORDER_TRACE_OK, [7], [5], some ["-1"]) ∧
    (7 : Int) ≠ -1 ∧ (5 : Int) ≠ -1 := by decide

/-- C3, witness: the amended theorem applied to the directive
`"deleting=42"` on `stNumName`; all hypotheses discharged by
evaluation. -/
theorem C3_numeric_directive_amended_witness :
    isDigitChar '4' = true ∧ (strtol0 ('4' :: ['2'])).2 = [] ∧
    recorder_trace_set (fun _ => true) (fun p n => p == n)
        (some (String.mk (['d', 'e', 'l', 'e', 't', 'i', 'n', 'g'] ++
            '=' :: '4' :: ['2']))) stNumName =
      some (RECORDER_TRACE_OK,
        { stNumName with
          recorders := stNumName.recorders.map (fun r =>
            if (fun p n => p == n)
                 (String.mk ['d', 'e', 'l', 'e', 't', 'i', 'n', 'g']) r.name then
              { r with trace := toInt32 (strtol0 ('4' :: ['2'])).1 } else r),
          tweaks := stNumName.tweaks.map (fun t =>
            if (fun p n => p == n)
                 (String.mk ['d', 'e', 'l', 'e', 't', 'i', 'n', 'g']) t.name then
              { t with tweak := toInt32 (strtol0 ('4' :: ['2'])).1 } else t) }) :=
  ⟨by decide, by decide,
   C3_numeric_directive_amended (fun _ => true) (fun p n => p == n) stNumName
     ['d', 'e', 'l', 'e', 't', 'i', 'n', 'g'] '4' ['2']
     (by decide) (by decide) (by decide) (by decide) (by decide) (by decide)
     (by decide) (by decide) rfl⟩

/-- A recorder about to be exported, trace off. -/
def recExport : recorder_info := { name := "r" }

/-- C4, witness: exporting `recExport` (trace 0) under channel name `sig`
sets the trace to the "exported only" sentinel. -/
theorem C4_export_trace_sentinel_witness :
    recorder_export none recExport (some "sig") false =
      some (["sig"],
        { name := "r", ring := [], trace := RECORDER_CHAN_MAGIC,
          exported := [some "sig", none, none, none] }) ∧
    ({ name := "r", ring := [], trace := RECORDER_CHAN_MAGIC,
       exported := [some "sig", none, none, none] : recorder_info }).trace =
      RECORDER_CHAN_MAGIC :=
  ⟨rfl,
   (C4_export_trace_sentinel none recExport "sig" false ["sig"] _ rfl).2.1 rfl⟩

/-- C9: `recorder_trace_set` applied to a NULL specification returns 0
(`RECORDER_TRACE_OK`) and leaves the entire state — every recorder's
trace, every tweak, and the shared-channel state — unchanged
(recorder.c:1425-1426, the check precedes every other action of the
function). -/
theorem C9_null_spec_is_noop (rxValid : String → Bool)
    (rxMatch : String → String → Bool) (st : trace_state) :
    recorder_trace_set rxValid rxMatch none st = some (RECORDER_TRACE_OK, st) ∧
    RECORDER_TRACE_OK = 0 :=
  ⟨rfl, rfl⟩

/-!
## Shared-memory channels (recorder.c:375-918)

The mapped file is modelled as the channel record readable at each
absolute address (`mem`), together with the current base address; a
channel handle stores only its offset (the C handle also carries the
pointer to its owning `recorder_chans`, which is passed explicitly
here).  The name/description/unit strings, stored in C as offsets from
the channel base so that they move together with the block
(recorder.c:606-613, 809-836), are inline fields of the record.  The ring
primitives `ring_readable`, `ring_read`, `ring_write`, `ring_writable`
live in ring.h, which is not under src/ — they are modelled from the
spec's ring contract (section 4.1). -/

/-- The embedded shared ring header (`ring_t`): counters and the item
array (one `(timestamp, value)` sample pair per position). -/
structure ring_t where
  size : Nat
  item_size : Nat
  reader : Nat
  writer : Nat
  commit : Nat
  overflow : Nat
  items : Nat → Int × Int

/-- The shared channel record (`recorder_shan`, recorder.c:394-407). -/
structure recorder_shan where
  type : recorder_type
  next : Nat
  nameStr : String
  descriptionStr : String
  unitStr : String
  min : Int
  max : Int
  ring : ring_t

/-- The per-process mapping state (`recorder_chans`, recorder.c:410-419). -/
structure recorder_chans where
  map_addr : Nat
  mem : Nat → recorder_shan

/-- A channel handle (`recorder_chan`, recorder.c:422-430). -/
structure recorder_chan where
  offset : Nat

/-- `recorder_shared` (recorder.c:437-446): resolve the shared channel
header as the currently mapped base address plus the handle's stored
offset, computed at each call. -/
def recorder_shared (chans : recorder_chans) (chan : recorder_chan) :
    recorder_shan :=
  chans.mem (chans.map_addr + chan.offset)

/-- Modelled from the spec: `ring_readable(ring, cursor)` is
`commit − cursor` clamped to `size`. -/
def ring_readable (r : ring_t) (cursor : Nat) : Nat :=
  min (r.commit - cursor) r.size

/-- Modelled from the spec: `ring_read` — a cursor behind the live window
(`writer − cursor > size`) is snapped to `writer − size` with a catch-up
(nothing read); otherwise up to `count` committed items are read from
positions `(cursor + k) mod size` and the cursor advances. -/
def ring_read (r : ring_t) (count : Nat) (cursor : Nat) :
    List (Int × Int) × Nat :=
  if r.writer - cursor > r.size then ([], r.writer - r.size)
  else
    let n := min count (r.commit - cursor)
    ((List.range n).map (fun k => r.items ((cursor + k) % r.size)),
     cursor + n)

/-- Modelled from the spec: items writable without lapping the reader. -/
def ring_writable (r : ring_t) : Nat := r.size - (r.writer - r.reader)

/-- Modelled from the spec: `ring_write` — reserve `n` slots by advancing
`writer`, copy, advance `commit`; an overrun forces the reader forward and
is counted, never blocked.  Returns the new ring and the count written. -/
def ring_write (r : ring_t) (data : List (Int × Int)) : ring_t × Nat :=
  let n := data.length
  let start := r.writer
  let overrun := start + n - r.reader > r.size
  ({ r with
     writer := start + n,
     commit := start + n,
     reader := if overrun then start + n - r.size else r.reader,
     overflow := r.overflow + (if overrun then 1 else 0),
     items := fun i =>
       match (List.range n).find? (fun k => (start + k) % r.size = i) with
       | some k => data.getD k (0, 0)
       | none => r.items i },
   n)

/-- `recorder_chan_name` (recorder.c:809-816). -/
def recorder_chan_name (chans : recorder_chans) (chan : recorder_chan) :
    String :=
  (recorder_shared chans chan).nameStr

/-- `recorder_chan_description` (recorder.c:819-826). -/
def recorder_chan_description (chans : recorder_chans)
    (chan : recorder_chan) : String :=
  (recorder_shared chans chan).descriptionStr

/-- `recorder_chan_unit` (recorder.c:829-836). -/
def recorder_chan_unit (chans : recorder_chans) (chan : recorder_chan) :
    String :=
  (recorder_shared chans chan).unitStr

/-- `recorder_chan_min` (recorder.c:839-846). -/
def recorder_chan_min (chans : recorder_chans) (chan : recorder_chan) :
    Int :=
  (recorder_shared chans chan).min

/-- `recorder_chan_max` (recorder.c:849-856). -/
def recorder_chan_max (chans : recorder_chans) (chan : recorder_chan) :
    Int :=
  (recorder_shared chans chan).max

/-- `recorder_chan_type` (recorder.c:859-866). -/
def recorder_chan_type (chans : recorder_chans) (chan : recorder_chan) :
    recorder_type :=
  (recorder_shared chans chan).type

/-- `recorder_chan_size` (recorder.c:869-876). -/
def recorder_chan_size (chans : recorder_chans) (chan : recorder_chan) :
    Nat :=
  (recorder_shared chans chan).ring.size

/-- `recorder_chan_item_size` (recorder.c:879-886). -/
def recorder_chan_item_size (chans : recorder_chans)
    (chan : recorder_chan) : Nat :=
  (recorder_shared chans chan).ring.item_size

/-- `recorder_chan_readable` (recorder.c:889-896). -/
def recorder_chan_readable (chans : recorder_chans)
    (chan : recorder_chan) (reader : Nat) : Nat :=
  ring_readable (recorder_shared chans chan).ring reader

/-- `recorder_chan_read` (recorder.c:899-908). -/
def recorder_chan_read (chans : recorder_chans) (chan : recorder_chan)
    (count : Nat) (reader : Nat) : List (Int × Int) × Nat :=
  ring_read (recorder_shared chans chan).ring count reader

/-- `recorder_chan_reader` (recorder.c:911-918). -/
def recorder_chan_reader (chans : recorder_chans)
    (chan : recorder_chan) : Nat :=
  (recorder_shared chans chan).ring.reader

/-- `recorder_chan_write` (recorder.c:677-684). -/
def recorder_chan_write (chans : recorder_chans) (chan : recorder_chan)
    (data : List (Int × Int)) : ring_t × Nat :=
  ring_write (recorder_shared chans chan).ring data

/-- `recorder_chan_writable` (recorder.c:687-694). -/
def recorder_chan_writable (chans : recorder_chans)
    (chan : recorder_chan) : Nat :=
  ring_writable (recorder_shared chans chan).ring

/-- `recorder_chan_writer` (recorder.c:697-704). -/
def recorder_chan_writer (chans : recorder_chans)
    (chan : recorder_chan) : Nat :=
  (recorder_shared chans chan).ring.writer

/-- C6: every channel accessor resolves the shared header via
`recorder_shared` — the current base address plus the handle's offset, at
each call — so after the mapping is relocated (different base, contents
moved with it), every accessor applied to a live handle yields the same
result as before. -/
theorem C6_accessors_relocation_safe (s1 s2 : recorder_chans)
    (chan : recorder_chan)
    (h : s2.mem (s2.map_addr + chan.offset) =
         s1.mem (s1.map_addr + chan.offset)) :
    recorder_shared s2 chan = recorder_shared s1 chan ∧
    recorder_chan_name s2 chan = recorder_chan_name s1 chan ∧
    recorder_chan_description s2 chan = recorder_chan_description s1 chan ∧
    recorder_chan_unit s2 chan = recorder_chan_unit s1 chan ∧
    recorder_chan_min s2 chan = recorder_chan_min s1 chan ∧
    recorder_chan_max s2 chan = recorder_chan_max s1 chan ∧
    recorder_chan_type s2 chan = recorder_chan_type s1 chan ∧
    recorder_chan_size s2 chan = recorder_chan_size s1 chan ∧
    recorder_chan_item_size s2 chan = recorder_chan_item_size s1 chan ∧
    (∀ reader, recorder_chan_readable s2 chan reader =
               recorder_chan_readable s1 chan reader) ∧
    (∀ count reader, recorder_chan_read s2 chan count reader =
                     recorder_chan_read s1 chan count reader) ∧
    recorder_chan_reader s2 chan = recorder_chan_reader s1 chan ∧
    (∀ data, recorder_chan_write s2 chan data =
             recorder_chan_write s1 chan data) ∧
    recorder_chan_writable s2 chan = recorder_chan_writable s1 chan ∧
    recorder_chan_writer s2 chan = recorder_chan_writer s1 chan := by
  have hs : recorder_shared s2 chan = recorder_shared s1 chan := h
  refine ⟨hs, ?_, ?_, ?_, ?_, ?_, ?_, ?_, ?_, ?_, ?_, ?_, ?_, ?_, ?_⟩ <;>
    first
    | (intro a b
       simp only [recorder_chan_read, hs])
    | (intro a
       simp only [recorder_chan_readable, recorder_chan_write, hs])
    | simp only [recorder_chan_name, recorder_chan_description,
        recorder_chan_unit, recorder_chan_min, recorder_chan_max,
        recorder_chan_type, recorder_chan_size, recorder_chan_item_size,
        recorder_chan_reader, recorder_chan_writable,
        recorder_chan_writer, hs]

/-- A concrete shared channel record used by the relocation witness. -/
def shanW : recorder_shan :=
  { type := RECORDER_SIGNED, next := 0, nameStr := "sig",
    descriptionStr := "d", unitStr := "", min := 0, max := 0,
    ring := { size := 4, item_size := 2, reader := 0, writer := 0,
              commit := 0, overflow := 0, items := fun _ => (0, 0) } }

/-- Filler record at all other addresses. -/
def shanZ : recorder_shan :=
  { type := RECORDER_NONE, next := 0, nameStr := "", descriptionStr := "",
    unitStr := "", min := 0, max := 0,
    ring := { size := 0, item_size := 0, reader := 0, writer := 0,
              commit := 0, overflow := 0, items := fun _ => (0, 0) } }

/-- The mapping before relocation: base 100, channel block at offset 5. -/
def chansBefore : recorder_chans :=
  { map_addr := 100, mem := fun a => if a = 105 then shanW else shanZ }

/-- The mapping after relocation to base 200, contents moved with it. -/
def chansAfter : recorder_chans :=
  { map_addr := 200, mem := fun a => if a = 205 then shanW else shanZ }

/-- C6, witness: after relocating the mapping from base 100 to base 200,
the handle at offset 5 still yields the same channel name. -/
theorem C6_accessors_relocation_safe_witness :
    chansAfter.mem (chansAfter.map_addr + ({ offset := 5 } :
        recorder_chan).offset) =
      chansBefore.mem (chansBefore.map_addr + ({ offset := 5 } :
        recorder_chan).offset) ∧
    recorder_chan_name chansAfter { offset := 5 } =
      recorder_chan_name chansBefore { offset := 5 } :=
  ⟨rfl,
   (C6_accessors_relocation_safe chansBefore chansAfter
      { offset := 5 } rfl).2.1⟩

/-!
## Signal-triggered dump (recorder.c:1126-1139)
-/

/-- A signal disposition: default, ignore, the recorder's dump handler,
or some other handler. -/
inductive sig_action where
  | dfl
  | ign
  | recorder_handler
  | other (id : Nat)
deriving DecidableEq, Repr

/-- The signal-related process state: the kernel's current disposition
for each signal number, and the library's saved-action array
`old_action[NSIG]` (recorder.c:1101). -/
structure signal_state where
  current : Nat → sig_action
  old_action : Nat → sig_action

/-- `recorder_dump_on_signal` (recorder.c:1126-1139): a signal number
below 0 or at least `NSIG` returns immediately; otherwise
`sigaction(sig, &action, &old_action[sig])` installs the dump handler and
saves the previous disposition.  `nsig` is the platform's `NSIG`
(signal.h, not under src/). -/
def recorder_dump_on_signal (nsig : Nat) (sig : Int)
    (st : signal_state) : signal_state :=
  if sig < 0 ∨ (nsig : Int) ≤ sig then st
  else
    { current := fun n =>
        if n = sig.toNat then sig_action.recorder_handler else st.current n,
      old_action := fun n =>
        if n = sig.toNat then st.current sig.toNat else st.old_action n }

/-- C10: for every signal number out of range (`sig < 0` or
`sig ≥ NSIG`), `recorder_dump_on_signal` is a no-op: no handler is
installed and the saved-action array is untouched — `old_action[sig]` is
never reached. -/
theorem C10_out_of_range_signal_noop (nsig : Nat) (sig : Int)
    (st : signal_state) (h : sig < 0 ∨ (nsig : Int) ≤ sig) :
    recorder_dump_on_signal nsig sig st = st := by
  simp [recorder_dump_on_signal, h]

/-- A concrete signal state for the witness. -/
def sigStW : signal_state :=
  { current := fun _ => sig_action.dfl, old_action := fun _ => sig_action.dfl }

/-- C10, witness: with `NSIG = 32`, both `sig = -1` and `sig = 64` leave
the state unchanged. -/
theorem C10_out_of_range_signal_noop_witness :
    recorder_dump_on_signal 32 (-1) sigStW = sigStW ∧
    recorder_dump_on_signal 32 64 sigStW = sigStW :=
  ⟨C10_out_of_range_signal_noop 32 (-1) sigStW (by decide),
   C10_out_of_range_signal_noop 32 64 sigStW (by decide)⟩

end Recorder
